import Mathlib

/-!
Verification of the AtomGL SDL display driver: a shallow embedding of the
damage-tracked, occlusion-ordered compositor in `sdl_display/display.c`
together with the data model of `display_items.h`, and theorems about it.

Modelling conventions:
* C `int` values are `Int`; C unsigned 32-bit color words are `Nat`
  (all operations used on them stay below 2^32, shifts and masks are as
  in the source).
* Pointers to pixel buffers are modelled by an identity tag `pix : Nat`
  (pointer equality in `cmp_display_item` compares tags) together with
  the pointed-to contents `pixData : Int → Nat` (a linear array of
  32-bit words, as the C code indexes it).
* The frame buffer `screen->pixels` is a function `Int → Nat` from the
  linear 32-bit-pixel index `screen.w * ypos + xpos` to the pixel word;
  the `BPP`-scaled byte arithmetic of the source collapses to this index.
* `SDL_MapRGB` (the platform color-mapping collaborator) is the function
  field `format` of `Screen`, taking the r, g, b bytes.
* C integer division and remainder truncate toward zero: `Int.tdiv` and
  `Int.tmod`.
* A C counting loop `for (j = start; j < width; j++)` runs exactly
  `(width - start).toNat` iterations; each loop is modelled by structural
  recursion on that iteration count, with the C loop variables carried
  along unchanged.
* Out-of-bounds list accesses made by `dumb_diff` (undefined behavior in
  the C source) make the model return `none`.
-/

set_option maxHeartbeats 1000000

namespace AtomGL

/-- `enum primitive` from `display_items.h`. -/
inductive PrimitiveKind where
  | Invalid
  | Image
  | ScaledCroppedImage
  | Rect
  | Text
deriving DecidableEq

/-- `struct BaseDisplayItem` from `display_items.h`, with the payload union
flattened: `pix`/`pixData` model `image_data`/`image_data_with_size.pix`
(pointer identity and pointed-to words), `imgWidth`/`imgHeight` model
`image_data_with_size.width/height`, `fgcolor`/`text` model `text_data`
(`text` as the byte string compared by `strcmp`). -/
structure BaseDisplayItem where
  primitive : PrimitiveKind
  x : Int
  y : Int
  width : Int
  height : Int
  brcolor : Nat
  pix : Nat
  pixData : Int → Nat
  imgWidth : Int
  imgHeight : Int
  fgcolor : Nat
  text : List Nat
  source_x : Int
  source_y : Int
  x_scale : Int
  y_scale : Int

/-- `struct Rectangle` from `display.c`. -/
structure Rectangle where
  x : Int
  y : Int
  width : Int
  height : Int
  valid : Bool
deriving DecidableEq

/-- The constant parts of `struct Screen`: dimensions and the platform
pixel-format mapping `SDL_MapRGB` (external collaborator, kept abstract as a
function of the r, g, b bytes). The mutable `pixels` buffer is threaded
separately as a value of type `Int → Nat`. -/
structure Screen where
  w : Int
  h : Int
  format : Nat → Nat → Nat → Nat

/-- `int_min` from `display.c`. -/
def int_min (a b : Int) : Int :=
  if a > b then b else a

/-- `int_max` from `display.c`. -/
def int_max (a b : Int) : Int :=
  if a > b then a else b

/-- `cmp_display_item` from `display.c`. -/
def cmp_display_item (a b : BaseDisplayItem) : Bool :=
  if a.primitive ≠ b.primitive ∨ a.x ≠ b.x ∨ a.y ≠ b.y ∨
      a.width ≠ b.width ∨ a.height ≠ b.height ∨ a.brcolor ≠ b.brcolor then
    false
  else
    match a.primitive with
    | .Image => decide (a.pix = b.pix)
    | .Rect => true
    | .Text => decide (a.fgcolor = b.fgcolor) && decide (a.text = b.text)
    | .ScaledCroppedImage =>
        decide (a.pix = b.pix) && decide (a.x_scale = b.x_scale) &&
          decide (a.y_scale = b.y_scale) && decide (a.source_x = b.source_x) &&
          decide (a.source_y = b.source_y)
    | .Invalid => true

/-- `update_damaged_area` from `display.c`. The source mutates `area->x`
(resp. `area->y`) before computing the new width (resp. height) from
`area->x + area->width`; the sequencing is reproduced exactly. -/
def update_damaged_area (area : Rectangle) (damage : Rectangle) : Rectangle :=
  if area.valid then
    let ax := int_min area.x damage.x
    let ay := int_min area.y damage.y
    let aw := int_max (ax + area.width) (damage.x + damage.width) - ax
    let ah := int_max (ay + area.height) (damage.y + damage.height) - ay
    { x := ax, y := ay, width := aw, height := ah, valid := area.valid }
  else
    { x := damage.x, y := damage.y, width := damage.width,
      height := damage.height, valid := true }

/-- `clip_rectangle` from `display.c` (same mutate-`x`-then-`width`
sequencing as the source). -/
def clip_rectangle (rectangle : Rectangle) (clip_region : Rectangle) : Rectangle :=
  let rx := int_max rectangle.x clip_region.x
  let ry := int_max rectangle.y clip_region.y
  let rw := int_min (rx + rectangle.width) (clip_region.x + clip_region.width) - rx
  let rh := int_min (ry + rectangle.height) (clip_region.y + clip_region.height) - ry
  { x := rx, y := ry, width := rw, height := rh, valid := rectangle.valid }

/-- The bounding-box rectangle `irect` that `dumb_diff` builds from an item. -/
def itemRect (it : BaseDisplayItem) : Rectangle :=
  { x := it.x, y := it.y, width := it.width, height := it.height, valid := true }

/-- Fallback item used only to give `List.getD` a default; the inner loops of
`dumb_diff` never index out of bounds (the indices are bounded by the scan
position `k < orig_len`). Field values follow the `Invalid` fallback of
`init_item`. -/
def dummyItem : BaseDisplayItem :=
  { primitive := .Invalid, x := -1, y := -1, width := 1, height := 1,
    brcolor := 0, pix := 0, pixData := fun _ => 0, imgWidth := 0, imgHeight := 0,
    fgcolor := 0, text := [], source_x := 0, source_y := 0, x_scale := 0, y_scale := 0 }

/-- The inner scan `for (int k = j + 1; k < orig_len; k++)` of `dumb_diff`,
walking the remaining suffix of `orig` while `k` tracks the C index: first
index `k` with `cmp_display_item(&new[i], &orig[k])`, if any. -/
def scan_forward_go (item : BaseDisplayItem) :
    List BaseDisplayItem → Nat → Option Nat
  | [], _ => none
  | o :: rest, k =>
    if cmp_display_item item o then some k else scan_forward_go item rest (k + 1)

/-- The inner scan of `dumb_diff` started at index `k` of `orig`. -/
def scan_forward (item : BaseDisplayItem) (orig : List BaseDisplayItem) (k : Nat) :
    Option Nat :=
  scan_forward_go item (orig.drop k) k

/-- The inner loop `for (int l = k - j; l < k; l++)` of `dumb_diff`, unioning
the bounding boxes of `orig[l]` into the accumulator; structural on the
iteration count, `l` tracking the C index. -/
def union_skipped_go (orig : List BaseDisplayItem) :
    Nat → Nat → Rectangle → Rectangle
  | _, 0, damaged => damaged
  | l, n + 1, damaged =>
      union_skipped_go orig (l + 1) n
        (update_damaged_area damaged (itemRect (orig.getD l dummyItem)))

/-- The inner union loop of `dumb_diff` over indices `[lo, hi)` of `orig`.
The source starts at `lo = k - j` (not `j`). -/
def union_skipped (orig : List BaseDisplayItem) (lo hi : Nat) (damaged : Rectangle) :
    Rectangle :=
  union_skipped_go orig lo (hi - lo) damaged

/-- The main `for (int i = 0; i < new_len; i++)` loop of `dumb_diff`, walking
the remaining suffix of `new` with the running index `j` into `orig`.
The source reads `orig[j]` without checking `j < orig_len`; that (undefined)
out-of-bounds access is modelled by returning `none`. -/
def dumb_diff_loop (orig : List BaseDisplayItem) (new : List BaseDisplayItem)
    (j : Nat) (damaged : Rectangle) : Option Rectangle :=
  match new with
  | [] => some damaged
  | item :: rest =>
    match orig[j]? with
    | none => none
    | some oj =>
      if cmp_display_item item oj then
        dumb_diff_loop orig rest (j + 1) damaged
      else
        match scan_forward item orig (j + 1) with
        | some k =>
            dumb_diff_loop orig rest (k + 1) (union_skipped orig (k - j) k damaged)
        | none =>
            dumb_diff_loop orig rest j (update_damaged_area damaged (itemRect item))

/-- `dumb_diff` from `display.c`: diff the previous item list `orig` against
the new list `new`, growing the accumulator `damaged`. -/
def dumb_diff (orig : List BaseDisplayItem) (new : List BaseDisplayItem)
    (damaged : Rectangle) : Option Rectangle :=
  if orig.length = 0 then
    some (new.foldl (fun d it => update_damaged_area d (itemRect it)) damaged)
  else
    dumb_diff_loop orig new 0 damaged

/-- `uint32_color_to_surface` from `display.c`: extract the r, g, b bytes of
the 32-bit RGBA color word and map them through `SDL_MapRGB`. -/
def uint32_color_to_surface (screen : Screen) (color : Nat) : Nat :=
  screen.format ((color >>> 24) &&& 0xFF) ((color >>> 16) &&& 0xFF) ((color >>> 8) &&& 0xFF)

/-- One store `pixmem32[drawn_pixels] = v` into the frame buffer, at linear
32-bit-pixel index `i`. -/
def writeFB (fb : Int → Nat) (i : Int) (v : Nat) : Int → Nat :=
  fun idx => if idx = i then v else fb idx

/-- The `for (int j = xpos - x; j < width; j++)` loop of `draw_image_x`,
structural on the iteration count with `j` and `drawn` tracking the C locals.
The source pixel read is `pixels[(ypos - y) * item->width + j]` (the running
pointer starts at `(ypos - y) * width + (xpos - x)` with the unclipped
`width = item->width` stride and advances with `j`); the store address is
`screen->w * ypos + xpos + drawn_pixels`. The `visible_bg`/`bgcolor` pair of
the source collapses to the `item.brcolor ≠ 0` test (`bgcolor` is only read
when `visible_bg` is true). -/
def image_loop (screen : Screen) (item : BaseDisplayItem) (xpos ypos : Int) :
    Nat → Int → Int → (Int → Nat) → Int × (Int → Nat)
  | 0, _, drawn, fb => (drawn, fb)
  | fuel + 1, j, drawn, fb =>
    let img_pixel := item.pixData ((ypos - item.y) * item.width + j)
    if (img_pixel >>> 24) &&& 0xFF ≠ 0 then
      image_loop screen item xpos ypos fuel (j + 1) (drawn + 1)
        (writeFB fb (screen.w * ypos + xpos + drawn) (uint32_color_to_surface screen img_pixel))
    else if item.brcolor ≠ 0 then
      image_loop screen item xpos ypos fuel (j + 1) (drawn + 1)
        (writeFB fb (screen.w * ypos + xpos + drawn) (uint32_color_to_surface screen item.brcolor))
    else
      (drawn, fb)

/-- `draw_image_x` from `display.c`: returns `drawn_pixels` and the updated
frame buffer. -/
def draw_image_x (screen : Screen) (fb : Int → Nat) (xpos ypos max_line_len : Int)
    (item : BaseDisplayItem) : Int × (Int → Nat) :=
  let width :=
    if item.width > xpos - item.x + max_line_len then xpos - item.x + max_line_len
    else item.width
  image_loop screen item xpos ypos (width - (xpos - item.x)).toNat (xpos - item.x) 0 fb

/-- The `for (int j = xpos - x; j < width; j++)` loop of
`draw_scaled_cropped_img_x`. `col` models the column component of the running
source pointer: it starts at `source_x + (xpos - x) / x_scale` and is
reassigned to `source_x + j / x_scale` at the end of iteration `j` (the
source updates the pointer before `j` is incremented, so iteration `j + 1`
reads the column computed from `j`). The returned list records the source
column sampled by each iteration, in order. -/
def scaled_loop (screen : Screen) (item : BaseDisplayItem) (xpos ypos : Int) :
    Nat → Int → Int → Int → (Int → Nat) → List Int → Int × (Int → Nat) × List Int
  | 0, _, drawn, _, fb, samples => (drawn, fb, samples)
  | fuel + 1, j, drawn, col, fb, samples =>
    let img_pixel :=
      item.pixData ((item.source_y + Int.tdiv (ypos - item.y) item.y_scale) * item.imgWidth + col)
    let col2 := item.source_x + Int.tdiv j item.x_scale
    if (img_pixel >>> 24) &&& 0xFF ≠ 0 then
      scaled_loop screen item xpos ypos fuel (j + 1) (drawn + 1) col2
        (writeFB fb (screen.w * ypos + xpos + drawn) (uint32_color_to_surface screen img_pixel))
        (samples ++ [col])
    else if item.brcolor ≠ 0 then
      scaled_loop screen item xpos ypos fuel (j + 1) (drawn + 1) col2
        (writeFB fb (screen.w * ypos + xpos + drawn) (uint32_color_to_surface screen item.brcolor))
        (samples ++ [col])
    else
      (drawn, fb, samples ++ [col])

/-- `draw_scaled_cropped_img_x` from `display.c`: returns `drawn_pixels`, the
updated frame buffer, and the trace of sampled source columns. -/
def draw_scaled_cropped_img_x (screen : Screen) (fb : Int → Nat)
    (xpos ypos max_line_len : Int) (item : BaseDisplayItem) :
    Int × (Int → Nat) × List Int :=
  let width0 := item.width
  let width1 :=
    if item.source_x + Int.tdiv width0 item.x_scale > item.imgWidth then
      (item.imgWidth - item.source_x) * item.x_scale
    else width0
  let width :=
    if width1 > xpos - item.x + max_line_len then xpos - item.x + max_line_len
    else width1
  scaled_loop screen item xpos ypos (width - (xpos - item.x)).toNat (xpos - item.x) 0
    (item.source_x + Int.tdiv (xpos - item.x) item.x_scale) fb []

/-- The `for (int j = xpos - x; j < width; j++)` loop of `draw_rect_x`. -/
def rect_loop (screen : Screen) (color : Nat) (xpos ypos : Int) :
    Nat → Int → (Int → Nat) → Int × (Int → Nat)
  | 0, drawn, fb => (drawn, fb)
  | fuel + 1, drawn, fb =>
    rect_loop screen color xpos ypos fuel (drawn + 1)
      (writeFB fb (screen.w * ypos + xpos + drawn) color)

/-- `draw_rect_x` from `display.c`. -/
def draw_rect_x (screen : Screen) (fb : Int → Nat) (xpos ypos max_line_len : Int)
    (item : BaseDisplayItem) : Int × (Int → Nat) :=
  let color := uint32_color_to_surface screen item.brcolor
  let width :=
    if item.width > xpos - item.x + max_line_len then xpos - item.x + max_line_len
    else item.width
  rect_loop screen color xpos ypos (width - (xpos - item.x)).toNat 0 fb

/-- The `for (int j = xpos - x; j < width; j++)` loop of `draw_text_x`.
`font` is the glyph table `fontdata` of `../font.c` (that file is not among
the sources under verification; per the spec it is the font collaborator
supplying, for a character code and row, the glyph scanline bits), read at
linear index `c * 16 + (ypos - y)`. The character read `text[j / 8]` is
modelled with default 0 past the end of the string. -/
def text_loop (screen : Screen) (font : Int → Nat) (item : BaseDisplayItem)
    (fgcolor : Nat) (xpos ypos : Int) :
    Nat → Int → Int → (Int → Nat) → Int × (Int → Nat)
  | 0, _, drawn, fb => (drawn, fb)
  | fuel + 1, j, drawn, fb =>
    let c := item.text.getD (Int.tdiv j 8).toNat 0
    let row := font (Int.ofNat c * 16 + (ypos - item.y))
    let k := Int.tmod j 8
    let opq := row &&& (1 <<< (7 - k).toNat) ≠ 0
    if opq then
      text_loop screen font item fgcolor xpos ypos fuel (j + 1) (drawn + 1)
        (writeFB fb (screen.w * ypos + xpos + drawn) fgcolor)
    else if item.brcolor ≠ 0 then
      text_loop screen font item fgcolor xpos ypos fuel (j + 1) (drawn + 1)
        (writeFB fb (screen.w * ypos + xpos + drawn) (uint32_color_to_surface screen item.brcolor))
    else
      (drawn, fb)

/-- `draw_text_x` from `display.c` (`CHAR_WIDTH = 8`, glyph height 16). -/
def draw_text_x (screen : Screen) (font : Int → Nat) (fb : Int → Nat)
    (xpos ypos max_line_len : Int) (item : BaseDisplayItem) : Int × (Int → Nat) :=
  let fgcolor := uint32_color_to_surface screen item.fgcolor
  let width :=
    if item.width > xpos - item.x + max_line_len then xpos - item.x + max_line_len
    else item.width
  text_loop screen font item fgcolor xpos ypos (width - (xpos - item.x)).toNat
    (xpos - item.x) 0 fb

/-- `find_max_line_len` from `display.c`, scanning the given (prefix) list. -/
def find_max_line_len (screen : Screen) (items : List BaseDisplayItem)
    (xpos ypos : Int) : Int :=
  items.foldl
    (fun line_len item =>
      if xpos < item.x ∧ ypos ≥ item.y ∧ ypos < item.y + item.height then
        if line_len > item.x - xpos then item.x - xpos else line_len
      else line_len)
    screen.w

/-- The `switch (items[i].primitive)` dispatch of `draw_x`: run the row
renderer of the item's kind and report its drawn-pixel count together with
the updated frame buffer (`drawn_pixels` stays 0 for an `Invalid` item, the
`default` branch that only prints an error). -/
def draw_dispatch (screen : Screen) (font : Int → Nat) (fb : Int → Nat)
    (xpos ypos max_line_len : Int) (item : BaseDisplayItem) : Int × (Int → Nat) :=
  match item.primitive with
  | .Image => draw_image_x screen fb xpos ypos max_line_len item
  | .ScaledCroppedImage =>
      let p := draw_scaled_cropped_img_x screen fb xpos ypos max_line_len item
      (p.1, p.2.1)
  | .Rect => draw_rect_x screen fb xpos ypos max_line_len item
  | .Text => draw_text_x screen font fb xpos ypos max_line_len item
  | .Invalid => (0, fb)

/-- The `for (int i = 0; i < items_count; i++)` loop of `draw_x`, structural
on the remaining suffix of `items` while `i` tracks the C index (so the
suffix argument is always `items.drop i`). The renderer dispatched for
`items[i]` runs for its side effects on the frame buffer even when it
reports 0 drawn pixels, exactly as in the source where the renderers write
through the global `screen` before returning (a renderer returning 0 has
performed no store). -/
def draw_x_go (screen : Screen) (font : Int → Nat) (items : List BaseDisplayItem)
    (xpos ypos : Int) : List BaseDisplayItem → Nat → Bool → (Int → Nat) → Int × (Int → Nat)
  | [], _, _, fb => (1, fb)
  | item :: rest, i, below, fb =>
    if xpos < item.x ∨ xpos ≥ item.x + item.width ∨ ypos < item.y ∨ ypos ≥ item.y + item.height then
      draw_x_go screen font items xpos ypos rest (i + 1) below fb
    else
      let max_line_len := if below then 1 else find_max_line_len screen (items.take i) xpos ypos
      let r := draw_dispatch screen font fb xpos ypos max_line_len item
      if r.1 ≠ 0 then r
      else draw_x_go screen font items xpos ypos rest (i + 1) true r.2

/-- `draw_x` from `display.c`: paint one run starting at `(xpos, ypos)` and
return how many pixels were consumed together with the updated frame buffer. -/
def draw_x (screen : Screen) (font : Int → Nat) (fb : Int → Nat)
    (xpos ypos : Int) (items : List BaseDisplayItem) : Int × (Int → Nat) :=
  draw_x_go screen font items xpos ypos items 0 false fb

/-- The inner `while (xpos < damaged.x + damaged.width)` loop of `do_update`,
advancing `xpos` by the count returned by `draw_x`. The recursion is fueled
with the column count of the damaged span: `draw_x` always returns at least 1
(theorem `draw_x_one_le` below), so `(xEnd - xStart).toNat` bounds the number
of iterations of the C loop and the fueled recursion computes the same frame
buffer. -/
def repaint_row_go (screen : Screen) (font : Int → Nat) (items : List BaseDisplayItem)
    (ypos xEnd : Int) : Nat → Int → (Int → Nat) → (Int → Nat)
  | 0, _, fb => fb
  | fuel + 1, xpos, fb =>
    if xpos < xEnd then
      let r := draw_x screen font fb xpos ypos items
      repaint_row_go screen font items ypos xEnd fuel (xpos + r.1) r.2
    else fb

/-- The outer `for (int ypos = damaged.y; ypos < damaged.y + damaged.height;
ypos++)` loop of `do_update`, structural on the row count with `ypos`
tracking the C loop variable. -/
def repaint_rows_go (screen : Screen) (font : Int → Nat) (items : List BaseDisplayItem)
    (xStart xEnd : Int) : Nat → Int → (Int → Nat) → (Int → Nat)
  | 0, _, fb => fb
  | n + 1, ypos, fb =>
    repaint_rows_go screen font items xStart xEnd n (ypos + 1)
      (repaint_row_go screen font items ypos xEnd (xEnd - xStart).toNat xStart fb)

/-- The repaint loops of `do_update` over the damaged rows `[ypos, yEnd)` and
columns `[xStart, xEnd)`. -/
def repaint_rows (screen : Screen) (font : Int → Nat) (items : List BaseDisplayItem)
    (xStart xEnd : Int) (ypos yEnd : Int) (fb : Int → Nat) : Int → Nat :=
  repaint_rows_go screen font items xStart xEnd (yEnd - ypos).toNat ypos fb

/-- `do_update` from `display.c`, from the point where the new item list has
been materialized (decoding the Erlang display list through `init_item` is
the external decoder collaborator): diff against the previous list, skip the
update when no damage is recorded, otherwise clip the damaged rectangle to
the screen, then — the WORKAROUND in the source — widen the damage to the
whole screen and repaint it row by row. The initial `damaged` rectangle of
the source has indeterminate `x, y, width, height` and `valid = false`; the
fields are written before any read (either by `update_damaged_area` or never
read at all when the diff records nothing), so zeros stand in for them.
Returns the new frame buffer, or `none` when the diff performed an
out-of-bounds access. -/
def do_update (screen : Screen) (font : Int → Nat)
    (prev_items items : List BaseDisplayItem) (fb : Int → Nat) : Option (Int → Nat) :=
  match dumb_diff prev_items items ⟨0, 0, 0, 0, false⟩ with
  | none => none
  | some damaged =>
    if damaged.valid = false then
      some fb
    else
      let damaged1 := clip_rectangle damaged ⟨0, 0, screen.w, screen.h, true⟩
      let damaged2 : Rectangle :=
        { x := 0, y := 0, width := screen.w, height := screen.h, valid := damaged1.valid }
      some (repaint_rows screen font items damaged2.x (damaged2.x + damaged2.width)
        damaged2.y (damaged2.y + damaged2.height) fb)

/-- A `Rect` display item (`init_item`, `rect` branch): geometry plus the
mandatory fill color; the payload fields of the other variants are unused. -/
def rectItem (x y w h : Int) (color : Nat) : BaseDisplayItem :=
  { dummyItem with
    primitive := .Rect, x := x, y := y, width := w, height := h,
    brcolor := color }

/-- A trivially concrete stand-in for the platform `SDL_MapRGB`. -/
def blackFmt : Nat → Nat → Nat → Nat := fun _ _ _ => 0

/-- An all-zero frame buffer. -/
def zeroFB : Int → Nat := fun _ => 0

/-- An all-zero glyph table. -/
def zeroFont : Int → Nat := fun _ => 0

/-- Concrete input for the C3 analysis: a 2x1 rectangle at the origin. -/
def c3_itemA : BaseDisplayItem := rectItem 0 0 2 1 0xFF0000FF

/-- Concrete input for the C3 analysis: a 2x1 rectangle at x = 5. -/
def c3_itemB : BaseDisplayItem := rectItem 5 0 2 1 0x0000FFFF

/-- Concrete input for the C6 analysis: a 1x1 rectangle. -/
def c6_rect : BaseDisplayItem := rectItem 0 0 1 1 0x0000FFFF

/-- Concrete input for the C4 witness: a 3x2 rectangle. -/
def c4_rect : BaseDisplayItem := rectItem 1 1 3 2 0x00FF00FF

/-- Concrete input for the C5 analysis: a `ScaledCroppedImage` with the
spec's `source_x = 8`, `img_width = 10`, `x_scale = 2`, at `width = 5`, over
a fully opaque backing image. -/
def c5_item : BaseDisplayItem :=
  { dummyItem with
    primitive := .ScaledCroppedImage, x := 0, y := 0, width := 5,
    height := 1, brcolor := 0, pix := 1, pixData := fun _ => 0xFF000000,
    imgWidth := 10, imgHeight := 1, source_x := 8, source_y := 0,
    x_scale := 2, y_scale := 1 }

/-- The transparent 4x1 image of the C1 scene (background color is the
`transparent` sentinel 0; the backing pixels are given by `pixData`). -/
def c1_image (pixData : Int → Nat) : BaseDisplayItem :=
  { dummyItem with
    primitive := .Image, x := 0, y := 0, width := 4, height := 1,
    brcolor := 0, pix := 1, pixData := pixData }

/-- The blue 4x1 rectangle of the C1 scene: `init_item` encodes the color
`0x0000FF` as `0x0000FF << 8 | 0xFF`. -/
def c1_rect : BaseDisplayItem := rectItem 0 0 4 1 0x0000FFFF

/-- C2: `update_damaged_area` does not return the smallest rectangle covering
both inputs. With the valid accumulator A = (x 5, y 0, w 3, h 1) and
B = (x 0, y 0, w 1, h 1), the claim requires the right edge
`max (A.x + A.width) (B.x + B.width) = 8`, but the code computes the width
from the already-lowered `area->x`, yielding a rectangle with right edge 3
that does not cover A. -/
theorem claim_C2_union_drops_right_edge :
    update_damaged_area ⟨5, 0, 3, 1, true⟩ ⟨0, 0, 1, 1, true⟩ = ⟨0, 0, 3, 1, true⟩ ∧
      int_max ((5 : Int) + 3) (0 + 1) = 8 ∧ ¬((0 : Int) + 3 = 8) := by
  refine ⟨rfl, rfl, by decide⟩

/-- C3: when the forward scan finds an equivalent item ahead, the skipped
previous items are not unioned into the damage. Here previous is [A, B] and
current is [B]: `current[0]` mismatches `previous[0]` (A), the scan finds the
equivalent B at k = 1, and the claim requires A's bounding box (indices
[j, k) = [0, 1)) to be unioned — but the code iterates `l` from `k - j = 1`
to `k = 1`, unioning nothing, and the damage rectangle stays invalid. -/
theorem claim_C3_skipped_items_not_unioned :
    cmp_display_item c3_itemB c3_itemA = false ∧
      cmp_display_item c3_itemB c3_itemB = true ∧
      dumb_diff [c3_itemA, c3_itemB] [c3_itemB] ⟨0, 0, 0, 0, false⟩ =
        some ⟨0, 0, 0, 0, false⟩ := by
  refine ⟨rfl, rfl, rfl⟩

/-- C6: the diff walks `previous` past its end. With previous = [R] and
current = [R, R], the first element matches (j becomes 1) and the second
iteration evaluates `cmp_display_item(&current[1], &previous[1])`, reading
`previous[1]` although previous has length 1 — the model signals the
out-of-bounds access with `none`. -/
theorem claim_C6_reads_previous_out_of_bounds :
    dumb_diff [c6_rect] [c6_rect, c6_rect] ⟨0, 0, 0, 0, false⟩ = none := by
  rfl

/-- C5: the drawable-width clipping of `draw_scaled_cropped_img_x` does not
keep every sampled source column below `img_width`. With the spec's
`source_x = 8`, `img_width = 10`, `x_scale = 2` and `width = 5`, starting the
run at `xpos = x + 4` (inside the bounding box, `max_line_len = 10`), the
clip leaves `width = 5` and the single iteration samples source column
`8 + 4 / 2 = 10`, one past the last valid column 9. -/
theorem claim_C5_samples_past_image_width :
    (draw_scaled_cropped_img_x ⟨10, 1, blackFmt⟩ zeroFB 4 0 10 c5_item).2.2 = [10] ∧
      ¬((10 : Int) < c5_item.imgWidth) := by
  refine ⟨rfl, by decide⟩

/-- `cmp_display_item` is reflexive: every item is equivalent to itself. -/
theorem cmp_display_item_refl (a : BaseDisplayItem) : cmp_display_item a a = true := by
  unfold cmp_display_item
  rw [if_neg (by simp)]
  cases hp : a.primitive <;> simp

/-- C7: two `ScaledCroppedImage` items are equivalent for the diff if and
only if they agree on geometry, background color, backing-buffer identity,
both scale factors and the source origin (the kinds already agree by
hypothesis). -/
theorem claim_C7_scaled_cropped_equivalence (a b : BaseDisplayItem)
    (ha : a.primitive = PrimitiveKind.ScaledCroppedImage)
    (hb : b.primitive = PrimitiveKind.ScaledCroppedImage) :
    cmp_display_item a b = true ↔
      (a.x = b.x ∧ a.y = b.y ∧ a.width = b.width ∧ a.height = b.height ∧
        a.brcolor = b.brcolor ∧ a.pix = b.pix ∧ a.x_scale = b.x_scale ∧
        a.y_scale = b.y_scale ∧ a.source_x = b.source_x ∧ a.source_y = b.source_y) := by
  unfold cmp_display_item
  rw [ha, hb]
  constructor
  · intro h
    split at h
    · exact absurd h (by simp)
    · rename_i hcond
      push_neg at hcond
      simp only [Bool.and_eq_true, decide_eq_true_eq] at h
      exact ⟨hcond.2.1, hcond.2.2.1, hcond.2.2.2.1, hcond.2.2.2.2.1, hcond.2.2.2.2.2,
        h.1.1.1.1, h.1.1.1.2, h.1.1.2, h.1.2, h.2⟩
  · rintro ⟨hx, hy, hw, hh, hc, hp, hxs, hys, hsx, hsy⟩
    rw [if_neg (by push_neg; exact ⟨rfl, hx, hy, hw, hh, hc⟩)]
    simp [hp, hxs, hys, hsx, hsy]

/-- C7 witness: the equivalence at a concrete pair of identical
`ScaledCroppedImage` items. -/
theorem claim_C7_witness :
    cmp_display_item c5_item c5_item = true ↔
      (c5_item.x = c5_item.x ∧ c5_item.y = c5_item.y ∧
        c5_item.width = c5_item.width ∧ c5_item.height = c5_item.height ∧
        c5_item.brcolor = c5_item.brcolor ∧ c5_item.pix = c5_item.pix ∧
        c5_item.x_scale = c5_item.x_scale ∧ c5_item.y_scale = c5_item.y_scale ∧
        c5_item.source_x = c5_item.source_x ∧ c5_item.source_y = c5_item.source_y) :=
  claim_C7_scaled_cropped_equivalence c5_item c5_item rfl rfl

/-- When the remaining new items are pointwise equivalent to the items of
`orig` from position `j` on, the diff loop records no damage. -/
theorem dumb_diff_loop_all_match (orig : List BaseDisplayItem) :
    ∀ (rest : List BaseDisplayItem) (j : Nat) (d : Rectangle),
      List.Forall₂ (fun a b => cmp_display_item a b = true) rest (orig.drop j) →
      dumb_diff_loop orig rest j d = some d := by
  intro rest
  induction rest with
  | nil => intro j d _; rfl
  | cons a tl ih =>
    intro j d h
    cases hdrop : orig.drop j with
    | nil => rw [hdrop] at h; exact absurd h (by simp)
    | cons b tl2 =>
      rw [hdrop] at h
      obtain ⟨hab, htl⟩ := List.forall₂_cons.mp h
      have hget : orig[j]? = some b := by
        have h0 : (orig.drop j)[0]? = some b := by rw [hdrop]; simp
        rwa [List.getElem?_drop] at h0
      have hdrop2 : orig.drop (j + 1) = tl2 := by
        rw [← List.drop_drop 1 j orig, hdrop]
        simp
      simp only [dumb_diff_loop, hget, hab, if_true]
      exact ih (j + 1) d (hdrop2 ▸ htl)

/-- C4: diffing a scene list against an element-wise equivalent copy of
itself (same primitives, same order) leaves the damage rectangle invalid, so
the frame's repaint is skipped. -/
theorem claim_C4_identical_lists_no_damage (previous current : List BaseDisplayItem)
    (d : Rectangle) (hvalid : d.valid = false)
    (heqv : List.Forall₂ (fun a b => cmp_display_item a b = true) current previous) :
    ∃ r, dumb_diff previous current d = some r ∧ r.valid = false := by
  refine ⟨d, ?_, hvalid⟩
  unfold dumb_diff
  by_cases h0 : previous.length = 0
  · have hp : previous = [] := List.length_eq_zero.mp h0
    subst hp
    have hc : current = [] := List.forall₂_nil_right_iff.mp heqv
    subst hc
    simp
  · rw [if_neg h0]
    exact dumb_diff_loop_all_match previous current 0 d (by rw [List.drop_zero]; exact heqv)

/-- C4 witness: a concrete one-element scene diffed against itself records
no damage. -/
theorem claim_C4_witness :
    ∃ r, dumb_diff [c4_rect] [c4_rect] ⟨0, 0, 0, 0, false⟩ = some r ∧ r.valid = false :=
  claim_C4_identical_lists_no_damage [c4_rect] [c4_rect] ⟨0, 0, 0, 0, false⟩ rfl
    (List.Forall₂.cons (cmp_display_item_refl c4_rect) List.Forall₂.nil)

/-- The image run never decreases the drawn-pixel counter. -/
theorem image_loop_fst_le (screen : Screen) (item : BaseDisplayItem) (xpos ypos : Int) :
    ∀ (fuel : Nat) (j drawn : Int) (fb : Int → Nat),
      drawn ≤ (image_loop screen item xpos ypos fuel j drawn fb).1 := by
  intro fuel
  induction fuel with
  | zero => intro j drawn fb; exact le_refl _
  | succ n ih =>
    intro j drawn fb
    simp only [image_loop]
    split_ifs with h1 h2
    · exact le_trans (by omega) (ih (j + 1) (drawn + 1) _)
    · exact le_trans (by omega) (ih (j + 1) (drawn + 1) _)
    · exact le_refl _

/-- The scaled-image run never decreases the drawn-pixel counter. -/
theorem scaled_loop_fst_le (screen : Screen) (item : BaseDisplayItem) (xpos ypos : Int) :
    ∀ (fuel : Nat) (j drawn col : Int) (fb : Int → Nat) (samples : List Int),
      drawn ≤ (scaled_loop screen item xpos ypos fuel j drawn col fb samples).1 := by
  intro fuel
  induction fuel with
  | zero => intro j drawn col fb samples; exact le_refl _
  | succ n ih =>
    intro j drawn col fb samples
    simp only [scaled_loop]
    split_ifs with h1 h2
    · exact le_trans (by omega) (ih (j + 1) (drawn + 1) _ _ _)
    · exact le_trans (by omega) (ih (j + 1) (drawn + 1) _ _ _)
    · exact le_refl _

/-- The rectangle run never decreases the drawn-pixel counter. -/
theorem rect_loop_fst_le (screen : Screen) (color : Nat) (xpos ypos : Int) :
    ∀ (fuel : Nat) (drawn : Int) (fb : Int → Nat),
      drawn ≤ (rect_loop screen color xpos ypos fuel drawn fb).1 := by
  intro fuel
  induction fuel with
  | zero => intro drawn fb; exact le_refl _
  | succ n ih =>
    intro drawn fb
    simp only [rect_loop]
    exact le_trans (by omega) (ih (drawn + 1) _)

/-- The text run never decreases the drawn-pixel counter. -/
theorem text_loop_fst_le (screen : Screen) (font : Int → Nat) (item : BaseDisplayItem)
    (fgcolor : Nat) (xpos ypos : Int) :
    ∀ (fuel : Nat) (j drawn : Int) (fb : Int → Nat),
      drawn ≤ (text_loop screen font item fgcolor xpos ypos fuel j drawn fb).1 := by
  intro fuel
  induction fuel with
  | zero => intro j drawn fb; exact le_refl _
  | succ n ih =>
    intro j drawn fb
    simp only [text_loop]
    split_ifs with h1 h2
    · exact le_trans (by omega) (ih (j + 1) (drawn + 1) _)
    · exact le_trans (by omega) (ih (j + 1) (drawn + 1) _)
    · exact le_refl _

/-- The dispatched row renderer always reports a nonnegative count. -/
theorem draw_dispatch_fst_nonneg (screen : Screen) (font : Int → Nat)
    (fb : Int → Nat) (xpos ypos max_line_len : Int) (item : BaseDisplayItem) :
    0 ≤ (draw_dispatch screen font fb xpos ypos max_line_len item).1 := by
  unfold draw_dispatch
  cases hp : item.primitive
  · exact le_refl _
  · exact image_loop_fst_le screen item xpos ypos _ _ 0 fb
  · exact scaled_loop_fst_le screen item xpos ypos _ _ 0 _ fb []
  · exact rect_loop_fst_le screen _ xpos ypos _ 0 fb
  · exact text_loop_fst_le screen font item _ xpos ypos _ _ 0 fb

/-- Every row renderer returns a nonnegative count, so `draw_x` returns at
least 1: either some renderer reported nonzero (hence positive) progress, or
the final `return 1` is reached. -/
theorem draw_x_go_one_le (screen : Screen) (font : Int → Nat)
    (items : List BaseDisplayItem) (xpos ypos : Int) :
    ∀ (suffix : List BaseDisplayItem) (i : Nat) (below : Bool) (fb : Int → Nat),
      1 ≤ (draw_x_go screen font items xpos ypos suffix i below fb).1 := by
  intro suffix
  induction suffix with
  | nil => intro i below fb; exact le_refl _
  | cons item rest ih =>
    intro i below fb
    simp only [draw_x_go]
    split_ifs with hskip h1 h2 h3 <;>
      first
        | exact ih (i + 1) below fb
        | exact ih (i + 1) true _
        | (have hnn := draw_dispatch_fst_nonneg screen font fb xpos ypos 1 item; omega)
        | (have hnn := draw_dispatch_fst_nonneg screen font fb xpos ypos
            (find_max_line_len screen (items.take i) xpos ypos) item
           omega)

/-- `draw_x` always reports at least one consumed pixel. -/
theorem draw_x_one_le (screen : Screen) (font : Int → Nat) (fb : Int → Nat)
    (xpos ypos : Int) (items : List BaseDisplayItem) :
    1 ≤ (draw_x screen font fb xpos ypos items).1 :=
  draw_x_go_one_le screen font items xpos ypos items 0 false fb

/-- C10: for every scene list and pixel position, `draw_x` returns a strictly
positive count — even when no primitive covers the pixel or every covering
primitive reports zero progress — so the per-row `while` loop over `xpos` in
`do_update` strictly advances and the repaint of a finite damaged rectangle
terminates. -/
theorem claim_C10_draw_x_positive (screen : Screen) (font : Int → Nat)
    (fb : Int → Nat) (xpos ypos : Int) (items : List BaseDisplayItem) :
    1 ≤ (draw_x screen font fb xpos ypos items).1 :=
  draw_x_one_le screen font fb xpos ypos items

/-- C9: when the diff reports no damage (the rectangle is still invalid),
`do_update` returns before the repaint loops and the frame buffer it yields
is the input frame buffer, unchanged at every pixel. -/
theorem claim_C9_no_damage_no_write (screen : Screen) (font : Int → Nat)
    (prev_items items : List BaseDisplayItem) (fb : Int → Nat) (r : Rectangle)
    (hdiff : dumb_diff prev_items items ⟨0, 0, 0, 0, false⟩ = some r)
    (hinvalid : r.valid = false) :
    do_update screen font prev_items items fb = some fb := by
  unfold do_update
  rw [hdiff]
  simp [hinvalid]

/-- C9 witness: updating from an empty scene to an empty scene leaves the
concrete frame buffer untouched. -/
theorem claim_C9_witness :
    do_update ⟨4, 1, blackFmt⟩ zeroFont [] [] zeroFB = some zeroFB :=
  claim_C9_no_damage_no_write ⟨4, 1, blackFmt⟩ zeroFont [] [] zeroFB
    ⟨0, 0, 0, 0, false⟩ rfl rfl

/-- Stores of the image run stay inside the half-open index interval from
`screen.w * ypos + xpos + drawn` to `screen.w * ypos + xpos` plus the final
count: every other frame-buffer cell keeps its previous value. -/
theorem image_loop_untouched (screen : Screen) (item : BaseDisplayItem) (xpos ypos : Int) :
    ∀ (fuel : Nat) (j drawn : Int) (fb : Int → Nat) (i : Int),
      (i < screen.w * ypos + xpos + drawn ∨
        screen.w * ypos + xpos + (image_loop screen item xpos ypos fuel j drawn fb).1 ≤ i) →
      (image_loop screen item xpos ypos fuel j drawn fb).2 i = fb i := by
  intro fuel
  induction fuel with
  | zero => intro j drawn fb i _; rfl
  | succ n ih =>
    intro j drawn fb i hi
    simp only [image_loop] at hi ⊢
    split_ifs with h1 h2
    · have hmono := image_loop_fst_le screen item xpos ypos n (j + 1) (drawn + 1)
        (writeFB fb (screen.w * ypos + xpos + drawn) (uint32_color_to_surface screen
          (item.pixData ((ypos - item.y) * item.width + j))))
      rw [if_pos h1] at hi
      rw [ih (j + 1) (drawn + 1) _ i (by omega)]
      unfold writeFB
      rw [if_neg (by omega)]
    · have hmono := image_loop_fst_le screen item xpos ypos n (j + 1) (drawn + 1)
        (writeFB fb (screen.w * ypos + xpos + drawn) (uint32_color_to_surface screen item.brcolor))
      rw [if_neg h1, if_pos h2] at hi
      rw [ih (j + 1) (drawn + 1) _ i (by omega)]
      unfold writeFB
      rw [if_neg (by omega)]
    · rfl

/-- C8: starting inside the bounding box with a positive length budget, the
image run returns a nonnegative drawn-pixel count; the count is 0 exactly
when the very first sampled source pixel has alpha 0 and the item has the
no-fill background sentinel; and no frame-buffer cell at or beyond the
stopping column is written. -/
theorem claim_C8_image_run_contract (screen : Screen) (fb : Int → Nat)
    (xpos ypos max_len : Int) (item : BaseDisplayItem)
    (hx1 : item.x ≤ xpos) (hx2 : xpos < item.x + item.width)
    (hy1 : item.y ≤ ypos) (hy2 : ypos < item.y + item.height)
    (hlen : 1 ≤ max_len) :
    0 ≤ (draw_image_x screen fb xpos ypos max_len item).1 ∧
      ((draw_image_x screen fb xpos ypos max_len item).1 = 0 ↔
        ((item.pixData ((ypos - item.y) * item.width + (xpos - item.x)) >>> 24) &&& 0xFF = 0 ∧
          item.brcolor = 0)) ∧
      (∀ i : Int,
        screen.w * ypos + xpos + (draw_image_x screen fb xpos ypos max_len item).1 ≤ i →
        (draw_image_x screen fb xpos ypos max_len item).2 i = fb i) := by
  refine ⟨?_, ?_, ?_⟩
  · exact image_loop_fst_le screen item xpos ypos _ _ 0 fb
  · simp only [draw_image_x]
    have hfuel : ∃ m, ((if item.width > xpos - item.x + max_len then xpos - item.x + max_len
        else item.width) - (xpos - item.x)).toNat = m + 1 := by
      split_ifs with hw
      · exact ⟨(max_len - 1).toNat, by omega⟩
      · exact ⟨(item.width - (xpos - item.x) - 1).toNat, by omega⟩
    obtain ⟨m, hm⟩ := hfuel
    rw [hm]
    simp only [image_loop]
    split_ifs with h1 h2
    · have := image_loop_fst_le screen item xpos ypos m (xpos - item.x + 1) (0 + 1)
        (writeFB fb (screen.w * ypos + xpos + 0) (uint32_color_to_surface screen
          (item.pixData ((ypos - item.y) * item.width + (xpos - item.x)))))
      constructor
      · intro h0; omega
      · intro hc; exact absurd hc.1 h1
    · have := image_loop_fst_le screen item xpos ypos m (xpos - item.x + 1) (0 + 1)
        (writeFB fb (screen.w * ypos + xpos + 0) (uint32_color_to_surface screen item.brcolor))
      constructor
      · intro h0; omega
      · intro hc; exact absurd hc.2 h2
    · simp only [ne_eq, not_not] at h1 h2
      exact ⟨fun _ => ⟨h1, h2⟩, fun _ => rfl⟩
  · intro i hi
    exact image_loop_untouched screen item xpos ypos _ _ 0 fb i (Or.inr hi)

/-- C8 witness: a 1x1 image with a transparent pixel and no background at its
only in-box position reports 0 drawn pixels and leaves the whole frame buffer
at its old values. -/
theorem claim_C8_witness :
    0 ≤ (draw_image_x ⟨4, 1, blackFmt⟩ zeroFB 0 0 4 (c1_image zeroFB)).1 ∧
      ((draw_image_x ⟨4, 1, blackFmt⟩ zeroFB 0 0 4 (c1_image zeroFB)).1 = 0 ↔
        (((c1_image zeroFB).pixData ((0 - (c1_image zeroFB).y) * (c1_image zeroFB).width +
            (0 - (c1_image zeroFB).x)) >>> 24) &&& 0xFF = 0 ∧
          (c1_image zeroFB).brcolor = 0)) ∧
      (∀ i : Int,
        (4 : Int) * 0 + 0 + (draw_image_x ⟨4, 1, blackFmt⟩ zeroFB 0 0 4 (c1_image zeroFB)).1 ≤ i →
        (draw_image_x ⟨4, 1, blackFmt⟩ zeroFB 0 0 4 (c1_image zeroFB)).2 i = zeroFB i) :=
  claim_C8_image_run_contract ⟨4, 1, blackFmt⟩ zeroFB 0 0 4 (c1_image zeroFB)
    (by decide) (by decide) (by decide) (by decide) (by decide)

/-- C1: with the scene [fully transparent 4x1 image, blue 4x1 rectangle] and
a 4x1 screen, a full update writes the mapped BLUE value to all four frame
buffer pixels: the compositor falls through the transparent image (whose
renderer reports 0 pixels) to the rectangle below at every column. -/
theorem claim_C1_fall_through (fmt : Nat → Nat → Nat → Nat) (font : Int → Nat)
    (fb pixData : Int → Nat)
    (halpha : ∀ i, (pixData i >>> 24) &&& 0xFF = 0) :
    ∃ fb2,
      do_update ⟨4, 1, fmt⟩ font [] [c1_image pixData, c1_rect] fb = some fb2 ∧
        ∀ i : Int, 0 ≤ i → i < 4 →
          fb2 i = uint32_color_to_surface ⟨4, 1, fmt⟩ c1_rect.brcolor := by
  have himg : ∀ (xpos : Int) (fb' : Int → Nat), 0 ≤ xpos → xpos < 4 →
      draw_image_x ⟨4, 1, fmt⟩ fb' xpos 0 4 (c1_image pixData) = (0, fb') := by
    intro xpos fb' hge hlt
    have e1 : (c1_image pixData).x = 0 := rfl
    have e3 : (c1_image pixData).width = 4 := rfl
    simp only [draw_image_x, e1, e3]
    rw [if_neg (by omega)]
    obtain ⟨m, hm⟩ : ∃ m, ((4 : Int) - (xpos - 0)).toNat = m + 1 :=
      ⟨((4 : Int) - (xpos - 0)).toNat - 1, by omega⟩
    rw [hm]
    have e5 : (c1_image pixData).brcolor = 0 := rfl
    have e6 : (c1_image pixData).pixData = pixData := rfl
    simp [image_loop, e5, e6, halpha]
  have hrect : ∀ (xpos : Int) (fb' : Int → Nat), 0 ≤ xpos → xpos < 4 →
      draw_rect_x ⟨4, 1, fmt⟩ fb' xpos 0 1 c1_rect =
        (1, writeFB fb' xpos (uint32_color_to_surface ⟨4, 1, fmt⟩ c1_rect.brcolor)) := by
    intro xpos fb' hge hlt
    have e1 : c1_rect.x = 0 := rfl
    have e3 : c1_rect.width = 4 := rfl
    simp only [draw_rect_x, e1, e3]
    have hfuel : (((if (4 : Int) > xpos - 0 + 1 then xpos - 0 + 1 else 4)) - (xpos - 0)).toNat = 1 := by
      split_ifs <;> omega
    rw [hfuel]
    simp only [rect_loop]
    have hidx : (Screen.mk 4 1 fmt).w * 0 + xpos + 0 = xpos := by
      show (4 : Int) * 0 + xpos + 0 = xpos
      ring
    rw [hidx]
    norm_num
  have hdraw : ∀ (xpos : Int) (fb' : Int → Nat), 0 ≤ xpos → xpos < 4 →
      draw_x ⟨4, 1, fmt⟩ font fb' xpos 0 [c1_image pixData, c1_rect] =
        (1, writeFB fb' xpos (uint32_color_to_surface ⟨4, 1, fmt⟩ c1_rect.brcolor)) := by
    intro xpos fb' hge hlt
    have e1 : (c1_image pixData).x = 0 := rfl
    have e2 : (c1_image pixData).y = 0 := rfl
    have e3 : (c1_image pixData).width = 4 := rfl
    have e4 : (c1_image pixData).height = 1 := rfl
    have f1 : c1_rect.x = 0 := rfl
    have f2 : c1_rect.y = 0 := rfl
    have f3 : c1_rect.width = 4 := rfl
    have f4 : c1_rect.height = 1 := rfl
    unfold draw_x
    simp only [draw_x_go, e1, e2, e3, e4]
    rw [if_neg (by omega)]
    have hmll : (if (false : Bool) then (1 : Int)
        else find_max_line_len ⟨4, 1, fmt⟩ ([c1_image pixData, c1_rect].take 0) xpos 0) = 4 := rfl
    rw [hmll]
    have hdisp1 : draw_dispatch ⟨4, 1, fmt⟩ font fb' xpos 0 4 (c1_image pixData) = (0, fb') := by
      unfold draw_dispatch
      have ep : (c1_image pixData).primitive = PrimitiveKind.Image := rfl
      rw [ep]
      exact himg xpos fb' hge hlt
    rw [hdisp1]
    rw [if_neg (by simp)]
    simp only [draw_x_go, f1, f2, f3, f4]
    rw [if_neg (by omega)]
    have hdisp2 : draw_dispatch ⟨4, 1, fmt⟩ font fb' xpos 0 1 c1_rect =
        (1, writeFB fb' xpos (uint32_color_to_surface ⟨4, 1, fmt⟩ c1_rect.brcolor)) := by
      unfold draw_dispatch
      have ep : c1_rect.primitive = PrimitiveKind.Rect := rfl
      rw [ep]
      exact hrect xpos fb' hge hlt
    simp only [if_true, hdisp2]
    norm_num
  have hstep : ∀ (fuel : Nat) (xpos : Int) (fb' : Int → Nat), 0 ≤ xpos → xpos < 4 →
      repaint_row_go ⟨4, 1, fmt⟩ font [c1_image pixData, c1_rect] 0 4 (fuel + 1) xpos fb' =
        repaint_row_go ⟨4, 1, fmt⟩ font [c1_image pixData, c1_rect] 0 4 fuel (xpos + 1)
          (writeFB fb' xpos (uint32_color_to_surface ⟨4, 1, fmt⟩ c1_rect.brcolor)) := by
    intro fuel xpos fb' hge hlt
    simp only [repaint_row_go]
    rw [if_pos (by omega), hdraw xpos fb' hge hlt]
  have hrow : repaint_row_go ⟨4, 1, fmt⟩ font [c1_image pixData, c1_rect] 0 4 4 0 fb =
      writeFB (writeFB (writeFB (writeFB fb 0
          (uint32_color_to_surface ⟨4, 1, fmt⟩ c1_rect.brcolor)) 1
          (uint32_color_to_surface ⟨4, 1, fmt⟩ c1_rect.brcolor)) 2
          (uint32_color_to_surface ⟨4, 1, fmt⟩ c1_rect.brcolor)) 3
          (uint32_color_to_surface ⟨4, 1, fmt⟩ c1_rect.brcolor) := by
    rw [show (4 : Nat) = 3 + 1 from rfl, hstep 3 0 fb (by omega) (by omega)]
    norm_num
    rw [show (3 : Nat) = 2 + 1 from rfl, hstep 2 1 _ (by omega) (by omega)]
    norm_num
    rw [show (2 : Nat) = 1 + 1 from rfl, hstep 1 2 _ (by omega) (by omega)]
    norm_num
    rw [show (1 : Nat) = 0 + 1 from rfl, hstep 0 3 _ (by omega) (by omega)]
    rfl
  refine ⟨writeFB (writeFB (writeFB (writeFB fb 0
      (uint32_color_to_surface ⟨4, 1, fmt⟩ c1_rect.brcolor)) 1
      (uint32_color_to_surface ⟨4, 1, fmt⟩ c1_rect.brcolor)) 2
      (uint32_color_to_surface ⟨4, 1, fmt⟩ c1_rect.brcolor)) 3
      (uint32_color_to_surface ⟨4, 1, fmt⟩ c1_rect.brcolor), ?_, ?_⟩
  · have hrows : repaint_rows ⟨4, 1, fmt⟩ font [c1_image pixData, c1_rect] 0 4 0 1 fb =
        repaint_row_go ⟨4, 1, fmt⟩ font [c1_image pixData, c1_rect] 0 4 4 0 fb := by
      unfold repaint_rows
      norm_num
      simp only [repaint_rows_go]
      rfl
    unfold do_update
    rw [show dumb_diff [] [c1_image pixData, c1_rect] ⟨0, 0, 0, 0, false⟩ =
      some ⟨0, 0, 4, 1, true⟩ from rfl]
    norm_num
    rw [hrows, hrow]
  · intro i h0 h4
    have hcases : i = 0 ∨ i = 1 ∨ i = 2 ∨ i = 3 := by omega
    rcases hcases with h | h | h | h <;> subst h <;> simp [writeFB]

/-- C1 witness: the fall-through scene repainted with concrete collaborators
(a trivial color map, an all-zero font and frame buffer, and an all-zero —
hence fully transparent — image payload). -/
theorem claim_C1_witness :
    ∃ fb2,
      do_update ⟨4, 1, blackFmt⟩ zeroFont [] [c1_image zeroFB, c1_rect] zeroFB = some fb2 ∧
        ∀ i : Int, 0 ≤ i → i < 4 →
          fb2 i = uint32_color_to_surface ⟨4, 1, blackFmt⟩ c1_rect.brcolor :=
  claim_C1_fall_through blackFmt zeroFont zeroFB zeroFB (by intro i; simp [zeroFB])

end AtomGL
